import Mathlib

/-!
Verification of the websent presentation server core (the tcell/v2 variant of
main.go, which is the version the specification documents: it has the builtin
stylesheet loader, the First/Last commands and the connected-viewer counter).

The shallow embedding below translates the shared presentation state, the
clamped navigation operation GotoSlide, the atomic Reload operation with its
two loaders (loadSlides and loadUserStyle), and the per-viewer EventStream
loop.  Go byte strings are modelled as lists of characters, so that every
definition is executable by kernel reduction.  File reads (os.ReadFile and
the embedded style FS) are modelled as functions from paths to optional
contents.  The external markdown renderer (blackfriday bf.Run together with
the regexp-based HTML image fix-ups, both third-party library calls that
cannot fail) is abstracted as a parameter function from slide source text to
HTML text, as the specification treats source-to-HTML conversion as an
external collaborator.
-/

namespace Websent

/-- A Go byte string, modelled as a list of characters. -/
abbrev Str := List Char

/-- A read-only file system view: path to contents when readable.  Models
both os.ReadFile and the embedded FS of builtin styles. -/
abbrev FS := Str → Option Str

/-- unicode.IsSpace restricted to the ASCII whitespace characters that Go
recognises (space, tab, newline, vertical tab, form feed, carriage return);
the non-ASCII Unicode space code points never occur in the claims. -/
def isSpaceChar (c : Char) : Bool :=
  c = ' ' ∨ c = '\t' ∨ c = '\n' ∨ c = '\x0b' ∨ c = '\x0c' ∨ c = '\r'

/-- bytes.TrimSpace: drop whitespace from both ends of the content. -/
def trimSpace (s : Str) : Str :=
  ((s.dropWhile isSpaceChar).reverse.dropWhile isSpaceChar).reverse

/-- bytes.Split of the content around each leftmost non-overlapping
occurrence of the three-newline slide separator used by websent. -/
def splitSlides : Str → List Str
  | [] => [[]]
  | '\n' :: '\n' :: '\n' :: rest => [] :: splitSlides rest
  | c :: rest =>
    match splitSlides rest with
    | [] => [[c]]
    | s :: ss => (c :: s) :: ss

/-- The error values Reload and its loaders can produce.  Each constructor
stands for one Go error value: the non-markdown filename error, the
os.ReadFile error on the source, the zero-slide error, the missing-builtin
stylesheet error, and the os.ReadFile error on the stylesheet. -/
inductive LoadError where
  | notMarkdown (file : Str)
  | unreadableSource (file : Str)
  | noSlides
  | missingBuiltin (name : Str)
  | unreadableStyle (file : Str)
deriving DecidableEq

/-- The State struct: the single authoritative presentation state.  The
mutex field is the lock around it and carries no data, so it is not
modelled; all claim-level operations act on whole-state snapshots, which is
exactly what the exclusive lock guarantees in the Go code. -/
structure State where
  Current : Int
  Total : Int
  Generation : Int
  Title : Str
  Slides : List Str
  SlidesRaw : List Str
  UserStyle : Str
deriving DecidableEq

/-- GotoSlide: clamp the target into the valid range and write Current. -/
def GotoSlide (s : State) (slide : Int) : State :=
  if slide < 1 then { s with Current := 1 }
  else if slide > s.Total then { s with Current := s.Total }
  else { s with Current := slide }

/-- The leading class-selector line of a slide, when present: the Go code
matches the anchored pattern of a period, one or more non-newline
characters, and a newline at the start of the slide, and returns the
matched text. -/
def classTagMatch (slide : Str) : Option Str :=
  let firstLine := slide.takeWhile (fun c => c ≠ '\n')
  if slide.head? = some '.' ∧ 2 ≤ firstLine.length ∧ firstLine.length < slide.length
  then some (firstLine ++ ['\n'])
  else none

/-- One iteration of the slide loop in loadSlides: build the section html
(with a class attribute when the slide opens with a class-selector line,
which is then stripped from the slide source) and the raw markdown text.
Returns the html slide and the raw slide. -/
def renderSlide (render : Str → Str) (idx : Nat) (slide : Str) : Str × Str :=
  match classTagMatch slide with
  | some m =>
    let stripped := slide.drop m.length
    ("<section id=\x27s".data ++ (toString (idx + 1)).data
        ++ "\x27 class=\x27".data ++ (m.drop 1).dropLast ++ "\x27>\n".data
        ++ render stripped ++ "</section>\n".data,
      stripped ++ ['\n'])
  | none =>
    ("<section id=\x27s".data ++ (toString (idx + 1)).data ++ "\x27>\n".data
        ++ render slide ++ "</section>\n".data,
      slide ++ ['\n'])

/-- loadSlides: refuse filenames not ending in .md, read the file, trim it,
split it into slides, render each, refuse an empty slide list, and extract
the title from a leading level-one markdown heading (default title:
websent). -/
def loadSlides (fs : FS) (render : Str → Str) (file : Str) :
    Except LoadError (Str × List Str × List Str) :=
  if ¬ List.isSuffixOf ".md".data file then .error (.notMarkdown file)
  else
    match fs file with
    | none => .error (.unreadableSource file)
    | some raw =>
      let content := trimSpace raw
      let rendered := (splitSlides content).enum.map
        (fun p => renderSlide render p.1 p.2)
      let slidesHTML := rendered.map Prod.fst
      let slidesMarkdown := rendered.map Prod.snd
      if slidesMarkdown.length < 1 then .error .noSlides
      else
        let title :=
          if List.isPrefixOf "# ".data content
          then (content.takeWhile (fun c => c ≠ '\n')).drop 2
          else "websent".data
        .ok (title, slidesHTML, slidesMarkdown)

/-- loadUserStyle: a reference of the form builtin:NAME is looked up in the
embedded FS under styles/NAME.css and fails when absent; any other
reference is read from the real file system and fails when unreadable. -/
def loadUserStyle (embedded : FS) (fs : FS) (stylesheet : Str) :
    Except LoadError Str :=
  if List.isPrefixOf "builtin:".data stylesheet then
    let stylename := stylesheet.drop 8
    match embedded ("styles/".data ++ stylename ++ ".css".data) with
    | none => .error (.missingBuiltin stylename)
    | some style => .ok style
  else
    match fs stylesheet with
    | none => .error (.unreadableStyle stylesheet)
    | some style => .ok style

/-- The condition under which the stylesheet loader fails: a builtin
reference names a style absent from the embedded FS, or a plain reference
is unreadable. -/
def styleLoadFails (embedded fs : FS) (stylesheet : Str) : Prop :=
  if List.isPrefixOf "builtin:".data stylesheet then
    embedded ("styles/".data ++ stylesheet.drop 8 ++ ".css".data) = none
  else fs stylesheet = none

/-- Reload: run both loaders before touching the state; on any loader error
return that error with the state untouched; on success, in one critical
section, increment Generation, set Total, clamp Current down when it
exceeds the new Total, and replace Title, Slides, SlidesRaw and UserStyle. -/
def Reload (fs embedded : FS) (render : Str → Str) (s : State)
    (presentation stylesheet : Str) : Option LoadError × State :=
  match loadSlides fs render presentation with
  | .error e => (some e, s)
  | .ok (title, slides, slidesRaw) =>
    match loadUserStyle embedded fs stylesheet with
    | .error e => (some e, s)
    | .ok userstyle =>
      let total : Int := slides.length
      (none,
        { s with
          Generation := s.Generation + 1
          Total := total
          Current := if s.Current > total then total else s.Current
          Title := title
          Slides := slides
          SlidesRaw := slidesRaw
          UserStyle := userstyle })

/-- A StateStore operation: clamped navigation or a reload.  A reload
carries the file systems and renderer it runs against, since the files may
change between reloads. -/
inductive Op where
  | goto (target : Int)
  | reload (fs embedded : FS) (render : Str → Str)
      (presentation stylesheet : Str)

/-- Apply one operation to the state.  A failed reload leaves the state as
it was, exactly as in the Go code where the error path returns before any
field is written. -/
def applyOp (s : State) : Op → State
  | .goto t => GotoSlide s t
  | .reload fs emb render p st => (Reload fs emb render s p st).2

/-- The events a per-viewer stream can emit: a slide-position diff carrying
the new index (the int case of the Go channel), or the content-reload
directive (the refresh string case), after which the stream ends. -/
inductive StreamEvent where
  | slideChanged (i : Int)
  | contentReloaded
deriving DecidableEq

/-- A viewer-side watcher: the generation and index it last observed, read
from the state when the stream starts and updated on each emitted diff. -/
structure Viewer where
  generation : Int
  current : Int
deriving DecidableEq

/-- One wake-up of the EventStream loop: either the cancellation branch of
the select fires, or the watcher proceeds and reads the given generation
and current index from the shared state under the read lock. -/
inductive Wake where
  | cancelled
  | signal (generation current : Int)
deriving DecidableEq

/-- One iteration of the EventStream loop body after cond.Wait returns:
cancellation stops the stream with no event; otherwise the generation check
runs first and a newer generation emits the reload directive and stops the
stream; otherwise a changed index updates the watcher and emits the new
index; otherwise nothing is emitted.  Returns the surviving watcher (none
when the stream terminates) and the emitted events. -/
def streamStep (v : Viewer) : Wake → Option Viewer × List StreamEvent
  | .cancelled => (none, [])
  | .signal g c =>
    if g > v.generation then (none, [.contentReloaded])
    else if c ≠ v.current then
      (some { v with current := c }, [.slideChanged c])
    else (some v, [])

/-- Run the EventStream loop over a sequence of wake-ups, collecting the
emitted events in order; the run ends early when a step terminates the
stream. -/
def runStream (v : Viewer) : List Wake → List StreamEvent
  | [] => []
  | w :: ws =>
    match streamStep v w with
    | (none, es) => es
    | (some v2, es) => es ++ runStream v2 ws

/-- A configuration of one viewer connection interleaved with the
controller: the shared state, the stream watcher (with its termination
flag), the capacity-one channel buffer between the watcher and the
connection handler, and the list of events the handler has consumed, each
paired with the value of Current at the moment of consumption. -/
structure Exec where
  st : State
  viewer : Viewer
  done : Bool
  buffer : Option StreamEvent
  delivered : List (StreamEvent × Int)
deriving DecidableEq

/-- The actions of the interleaved system: a controller GotoSlide, a full
pass of the watcher loop body (wake, read state, emit), and a consumption
of one buffered event by the connection handler. -/
inductive Act where
  | goto (t : Int)
  | wake
  | consume
deriving DecidableEq

/-- The watcher loop body as an action on a configuration.  The Go watcher
holds the read lock from the state read through the channel send, so no
state mutation can interleave between them and the pass is atomic here.  A
send into a full buffer blocks in Go, so a pass that needs to emit is only
enabled (non-none) when the buffer is empty. -/
def wakeExec (e : Exec) : Option Exec :=
  if e.done then none
  else if e.st.Generation > e.viewer.generation then
    match e.buffer with
    | none => some { e with buffer := some .contentReloaded, done := true }
    | some _ => none
  else if e.st.Current ≠ e.viewer.current then
    match e.buffer with
    | none => some { e with
        viewer := { e.viewer with current := e.st.Current }
        buffer := some (.slideChanged e.st.Current) }
    | some _ => none
  else some e

/-- One action of the interleaved system; none when the action is not
enabled in this configuration. -/
def stepExec (e : Exec) : Act → Option Exec
  | .goto t => some { e with st := GotoSlide e.st t }
  | .wake => wakeExec e
  | .consume =>
    match e.buffer with
    | some ev => some { e with
        buffer := none
        delivered := e.delivered ++ [(ev, e.st.Current)] }
    | none => none

/-- Run a sequence of actions; none when some action was not enabled. -/
def runExec (e : Exec) : List Act → Option Exec
  | [] => some e
  | a :: acts => (stepExec e a).bind (fun e2 => runExec e2 acts)

/-- The initial configuration of a fresh viewer connection against state s:
the watcher has just read s, the buffer is empty, nothing was delivered. -/
def initExec (s : State) : Exec :=
  { st := s
    viewer := { generation := s.Generation, current := s.Current }
    done := false
    buffer := none
    delivered := [] }

/-- The goto targets contained in an action sequence, in order. -/
def gotoTargets : List Act → List Int
  | [] => []
  | .goto t :: as => t :: gotoTargets as
  | .wake :: as => gotoTargets as
  | .consume :: as => gotoTargets as

/-- Initial-segment order on lists: the first list is what the second
starts with. -/
def Leads : List Int → List Int → Prop
  | [], _ => True
  | x :: xs, y :: ys => x = y ∧ Leads xs ys
  | _ :: _, [] => False

/-- All events sent into the channel so far, in send order: the consumed
ones followed by the one still buffered, if any. -/
def sentList (e : Exec) : List StreamEvent :=
  e.delivered.map Prod.fst ++ e.buffer.toList

/-- The events the connection handler has consumed, in order. -/
def deliveredEvents (e : Exec) : List StreamEvent :=
  e.delivered.map Prod.fst

/-- The slide index carried by an event (zero for the reload directive;
only used on slide-change events). -/
def evIdx : StreamEvent → Int
  | .slideChanged i => i
  | .contentReloaded => 0

/-- A sample in-range presentation state used to instantiate theorems with
hypotheses on concrete inputs. -/
def state0 : State :=
  { Current := 1
    Total := 3
    Generation := 0
    Title := "websent".data
    Slides := ["<section>a</section>".data]
    SlidesRaw := ["a".data]
    UserStyle := "c".data }

/-- A sample file system with one readable markdown source and one readable
stylesheet. -/
def fs1 : FS := fun pth =>
  if pth = "t.md".data then some "# hello\nworld".data
  else if pth = "style.css".data then some "b".data else none

/-- A sample file system with a readable non-markdown source and a readable
stylesheet. -/
def fsTxt : FS := fun pth =>
  if pth = "slides.txt".data then some "hello".data
  else if pth = "style.css".data then some "b".data else none

/-- A file system with nothing readable. -/
def fsNone : FS := fun _ => none

/-- A sample stand-in for the external markdown renderer. -/
def render1 : Str → Str := fun _ => "R".data

/-- Invariant of the C6 coalescing scenario: the controller is issuing
GotoSlide 2 and then GotoSlide 3 (rem is what it has not issued yet), the
generation never changes, the watcher trails the state, and all events sent
so far are slide changes whose indices are non-decreasing in send order and
bounded by the watcher's observed index. -/
structure ScenInv (g0 T : Int) (rem : List Int) (e : Exec) : Prop where
  gen_st : e.st.Generation = g0
  gen_v : e.viewer.generation = g0
  not_done : e.done = false
  total : e.st.Total = T
  hT : 3 ≤ T
  hrem : rem = [2, 3] ∨ rem = [3] ∨ rem = []
  cur : e.st.Current = 3 - rem.length
  v_le : e.viewer.current ≤ e.st.Current
  v_ge : 1 ≤ e.viewer.current
  no_rel : StreamEvent.contentReloaded ∉ sentList e
  sorted : List.Pairwise (fun a b => evIdx a ≤ evIdx b) (sentList e)
  bound : ∀ ev ∈ sentList e, evIdx ev ≤ e.viewer.current

/-! ## Helper lemmas -/

/-- A failed Reload returns the state it was given. -/
theorem reload_fail_eq (fs emb : FS) (render : Str → Str) (s : State)
    (p st : Str) (h : (Reload fs emb render s p st).1 ≠ none) :
    (Reload fs emb render s p st).2 = s := by
  unfold Reload at *
  cases hls : loadSlides fs render p with
  | error e => simp [hls]
  | ok v =>
    obtain ⟨title, slides, raw⟩ := v
    cases hst : loadUserStyle emb fs st with
    | error e => simp [hls, hst]
    | ok style =>
      rw [hls, hst] at h
      simp at h

/-- A successful loadSlides yields at least one slide, and as many rendered
slides as raw slides. -/
theorem loadSlides_ok_length (fs : FS) (render : Str → Str) (file : Str)
    {title : Str} {slides raw : List Str}
    (h : loadSlides fs render file = .ok (title, slides, raw)) :
    1 ≤ slides.length ∧ slides.length = raw.length := by
  unfold loadSlides at h
  split at h
  · simp at h
  · split at h
    · simp at h
    · dsimp only at h
      split at h
      · simp at h
      · rename_i hlen
        simp only [Except.ok.injEq, Prod.mk.injEq] at h
        obtain ⟨-, h2, h3⟩ := h
        subst h2; subst h3
        simp only [List.length_map] at hlen ⊢
        exact ⟨by omega, trivial⟩

/-- A successful Reload is exactly the loader outputs written into the
state, with the generation bumped and the index clamped down to the new
total when it exceeded it. -/
theorem reload_success_fields (fs emb : FS) (render : Str → Str) (s : State)
    (p st : Str) (h : (Reload fs emb render s p st).1 = none) :
    ∃ title slides raw style,
      loadSlides fs render p = .ok (title, slides, raw) ∧
      loadUserStyle emb fs st = .ok style ∧
      (Reload fs emb render s p st).2 =
        { Current := if s.Current > (slides.length : Int)
            then (slides.length : Int) else s.Current
          Total := (slides.length : Int)
          Generation := s.Generation + 1
          Title := title
          Slides := slides
          SlidesRaw := raw
          UserStyle := style } := by
  unfold Reload at *
  cases hls : loadSlides fs render p with
  | error e => rw [hls] at h; simp at h
  | ok v =>
    obtain ⟨title, slides, raw⟩ := v
    cases hst : loadUserStyle emb fs st with
    | error e => rw [hls, hst] at h; simp at h
    | ok style =>
      exact ⟨title, slides, raw, style, rfl, rfl, rfl⟩

/-! ## Claim theorems -/

/-- Claim C2: for every integer target and every state whose total is at
least one, GotoSlide sets Current to the target clamped into the valid
range, namely min (max target 1) Total, and repeating the same call from
the resulting state leaves the state unchanged. -/
theorem websent_c2_goto_clamp_idem (s : State) (t : Int) (hT : 1 ≤ s.Total) :
    (GotoSlide s t).Current = min (max t 1) s.Total ∧
    GotoSlide (GotoSlide s t) t = GotoSlide s t := by
  constructor
  · unfold GotoSlide
    split
    · simp only
      omega
    · split
      · simp only
        omega
      · simp only
        omega
  · unfold GotoSlide
    split
    · simp_all
    · split
      · simp_all
      · simp_all

/-- Witness for C2 at a concrete state and an out-of-range target. -/
theorem websent_c2_goto_clamp_idem_witness :
    (GotoSlide state0 5).Current = min (max 5 1) state0.Total ∧
    GotoSlide (GotoSlide state0 5) 5 = GotoSlide state0 5 :=
  websent_c2_goto_clamp_idem state0 5 (by decide)

/-- Claim C3: whenever Reload returns an error, every field of the state is
exactly what it was before the call (the whole record is unchanged, hence
Current, Total, Generation, Title, Slides, SlidesRaw and UserStyle all
are). -/
theorem websent_c3_reload_failure_atomic (fs emb : FS) (render : Str → Str)
    (s : State) (p st : Str) (e : LoadError)
    (h : (Reload fs emb render s p st).1 = some e) :
    (Reload fs emb render s p st).2 = s :=
  reload_fail_eq fs emb render s p st (by simp [h])

/-- Witness for C3: a reload against an unreadable file system leaves the
sample state intact. -/
theorem websent_c3_reload_failure_atomic_witness :
    (Reload fsNone fsNone render1 state0 "a.md".data "b.css".data).2 = state0 :=
  websent_c3_reload_failure_atomic fsNone fsNone render1 state0
    "a.md".data "b.css".data (.unreadableSource "a.md".data) (by decide)

/-- Claim C1: from any state with Total at least one and Current in range,
every operation preserves the range invariant on Current; moreover a failed
Reload leaves the state untouched, and a successful Reload whose new Total
is below Current clamps Current to exactly the new Total. -/
theorem websent_c1_invariant (s : State) (h1 : 1 ≤ s.Current)
    (h2 : s.Current ≤ s.Total) (h3 : 1 ≤ s.Total) :
    (∀ op : Op, 1 ≤ (applyOp s op).Current ∧
      (applyOp s op).Current ≤ (applyOp s op).Total) ∧
    (∀ (fs emb : FS) (render : Str → Str) (p st : Str),
      (Reload fs emb render s p st).1 ≠ none →
      (Reload fs emb render s p st).2 = s) ∧
    (∀ (fs emb : FS) (render : Str → Str) (p st : Str),
      (Reload fs emb render s p st).1 = none →
      (Reload fs emb render s p st).2.Total < s.Current →
      (Reload fs emb render s p st).2.Current =
        (Reload fs emb render s p st).2.Total) := by
  refine ⟨?_, ?_, ?_⟩
  · intro op
    cases op with
    | goto t =>
      simp only [applyOp]
      unfold GotoSlide
      split
      · simp only
        omega
      · split
        · simp only
          omega
        · simp only
          omega
    | reload fs emb render p st =>
      simp only [applyOp]
      by_cases hok : (Reload fs emb render s p st).1 = none
      · obtain ⟨title, slides, raw, style, hls, -, heq⟩ :=
          reload_success_fields fs emb render s p st hok
        obtain ⟨hlen, -⟩ := loadSlides_ok_length fs render p hls
        rw [heq]
        simp only
        have : (1 : Int) ≤ (slides.length : Int) := by exact_mod_cast hlen
        split
        · omega
        · omega
      · rw [reload_fail_eq fs emb render s p st hok]
        exact ⟨h1, h2⟩
  · intro fs emb render p st h
    exact reload_fail_eq fs emb render s p st h
  · intro fs emb render p st hok hlt
    obtain ⟨title, slides, raw, style, hls, -, heq⟩ :=
      reload_success_fields fs emb render s p st hok
    rw [heq] at hlt ⊢
    simp only at hlt ⊢
    split
    · rfl
    · omega

/-- Witness for C1 at the sample state: a far-out navigation target stays
in range. -/
theorem websent_c1_invariant_witness :
    1 ≤ (applyOp state0 (Op.goto 7)).Current ∧
    (applyOp state0 (Op.goto 7)).Current ≤ (applyOp state0 (Op.goto 7)).Total :=
  (websent_c1_invariant state0 (by decide) (by decide) (by decide)).1 (Op.goto 7)

/-- No single operation ever decreases the generation counter. -/
theorem applyOp_generation_le (s : State) (op : Op) :
    s.Generation ≤ (applyOp s op).Generation := by
  cases op with
  | goto t =>
    simp only [applyOp]
    unfold GotoSlide
    split
    · exact le_refl _
    · split <;> exact le_refl _
  | reload fs emb render p st =>
    simp only [applyOp]
    by_cases hok : (Reload fs emb render s p st).1 = none
    · obtain ⟨t2, sl, r, sty, -, -, heq⟩ :=
        reload_success_fields fs emb render s p st hok
      rw [heq]
      simp only
      omega
    · rw [reload_fail_eq fs emb render s p st hok]

/-- The generation counter is monotone over any sequence of operations. -/
theorem foldl_generation_le (ops : List Op) :
    ∀ s : State, s.Generation ≤ (ops.foldl applyOp s).Generation := by
  induction ops with
  | nil =>
    intro s
    simp
  | cons a as ih =>
    intro s
    simp only [List.foldl_cons]
    exact le_trans (applyOp_generation_le s a) (ih (applyOp s a))

/-- Claim C4: a successful Reload bumps the generation by exactly one, sets
Total to the loader's slide count, installs the freshly loaded title, slide
lists and stylesheet in the same update, and lowers Current to the new
Total exactly when it exceeded it; and the generation never decreases over
any sequence of operations. -/
theorem websent_c4_reload_success (fs emb : FS) (render : Str → Str)
    (s : State) (p st : Str) :
    ((Reload fs emb render s p st).1 = none →
      ∃ title slides raw style,
        loadSlides fs render p = .ok (title, slides, raw) ∧
        loadUserStyle emb fs st = .ok style ∧
        (Reload fs emb render s p st).2.Generation = s.Generation + 1 ∧
        (Reload fs emb render s p st).2.Total = (slides.length : Int) ∧
        (Reload fs emb render s p st).2.Title = title ∧
        (Reload fs emb render s p st).2.Slides = slides ∧
        (Reload fs emb render s p st).2.SlidesRaw = raw ∧
        (Reload fs emb render s p st).2.UserStyle = style ∧
        ((slides.length : Int) < s.Current →
          (Reload fs emb render s p st).2.Current = (slides.length : Int)) ∧
        (s.Current ≤ (slides.length : Int) →
          (Reload fs emb render s p st).2.Current = s.Current)) ∧
    (∀ (s0 : State) (ops : List Op),
      s0.Generation ≤ (ops.foldl applyOp s0).Generation) := by
  constructor
  · intro hok
    obtain ⟨title, slides, raw, style, hls, hst, heq⟩ :=
      reload_success_fields fs emb render s p st hok
    refine ⟨title, slides, raw, style, hls, hst, ?_⟩
    rw [heq]
    refine ⟨rfl, rfl, rfl, rfl, rfl, rfl, ?_, ?_⟩
    · intro h
      simp only
      split
      · rfl
      · omega
    · intro h
      simp only
      split
      · omega
      · rfl
  · intro s0 ops
    exact foldl_generation_le ops s0

/-- Witness for C4: a concrete successful reload bumps the generation of
the sample state from zero to one, and a sample operation sequence does not
decrease the generation. -/
theorem websent_c4_reload_success_witness :
    (Reload fs1 fsNone render1 state0 "t.md".data "style.css".data).2.Generation
      = state0.Generation + 1 ∧
    state0.Generation ≤ ([Op.goto 2].foldl applyOp state0).Generation := by
  have h := websent_c4_reload_success fs1 fsNone render1 state0
    "t.md".data "style.css".data
  obtain ⟨-, -, -, -, -, -, hgen, -⟩ := h.1 (by decide)
  exact ⟨hgen, h.2 state0 [Op.goto 2]⟩

/-- A cancellation wake ends the stream without an event. -/
theorem runStream_cons_cancelled (v : Viewer) (ws : List Wake) :
    runStream v (.cancelled :: ws) = [] := rfl

/-- A wake seeing a newer generation emits the reload directive and ends
the stream. -/
theorem runStream_cons_reload (v : Viewer) {g : Int} (hg : g > v.generation)
    (c : Int) (ws : List Wake) :
    runStream v (.signal g c :: ws) = [.contentReloaded] := by
  have h1 : streamStep v (.signal g c) = (none, [.contentReloaded]) := by
    unfold streamStep
    simp [hg]
  show (match streamStep v (.signal g c) with
    | (none, es) => es
    | (some v2, es) => es ++ runStream v2 ws) = _
  rw [h1]

/-- A wake seeing the same generation and a changed index emits the new
index and continues with the updated watcher. -/
theorem runStream_cons_changed (v : Viewer) {g c : Int}
    (hg : ¬ g > v.generation) (hc : c ≠ v.current) (ws : List Wake) :
    runStream v (.signal g c :: ws) =
      .slideChanged c :: runStream { v with current := c } ws := by
  have h1 : streamStep v (.signal g c) =
      (some { v with current := c }, [.slideChanged c]) := by
    unfold streamStep
    simp [hg, hc]
  show (match streamStep v (.signal g c) with
    | (none, es) => es
    | (some v2, es) => es ++ runStream v2 ws) = _
  rw [h1]
  rfl

/-- A wake seeing the same generation and the same index emits nothing. -/
theorem runStream_cons_same (v : Viewer) {g c : Int}
    (hg : ¬ g > v.generation) (hc : c = v.current) (ws : List Wake) :
    runStream v (.signal g c :: ws) = runStream v ws := by
  have h1 : streamStep v (.signal g c) = (some v, []) := by
    unfold streamStep
    simp [hg, hc]
  show (match streamStep v (.signal g c) with
    | (none, es) => es
    | (some v2, es) => es ++ runStream v2 ws) = _
  rw [h1]
  rfl

/-- A stream trace contains the reload directive at most once. -/
theorem runStream_count_le (v : Viewer) (ws : List Wake) :
    (runStream v ws).count StreamEvent.contentReloaded ≤ 1 := by
  induction ws generalizing v with
  | nil => simp [runStream]
  | cons w ws ih =>
    cases w with
    | cancelled => simp [runStream_cons_cancelled]
    | signal g c =>
      by_cases hg : g > v.generation
      · simp [runStream_cons_reload v hg]
      · by_cases hc : c = v.current
        · simpa [runStream_cons_same v hg hc] using ih v
        · simpa [runStream_cons_changed v hg hc, List.count_cons] using
            ih { v with current := c }

/-- When a stream trace contains the reload directive, the directive is the
final event of the trace. -/
theorem runStream_reload_final (v : Viewer) (ws : List Wake)
    (h : StreamEvent.contentReloaded ∈ runStream v ws) :
    ∃ pre, runStream v ws = pre ++ [StreamEvent.contentReloaded] := by
  induction ws generalizing v with
  | nil => simp [runStream] at h
  | cons w ws ih =>
    cases w with
    | cancelled => simp [runStream_cons_cancelled] at h
    | signal g c =>
      by_cases hg : g > v.generation
      · exact ⟨[], runStream_cons_reload v hg c ws⟩
      · by_cases hc : c = v.current
        · rw [runStream_cons_same v hg hc] at h ⊢
          exact ih v h
        · rw [runStream_cons_changed v hg hc] at h ⊢
          rcases List.mem_cons.mp h with h1 | h1
          · cases h1
          · obtain ⟨pre, hpre⟩ := ih { v with current := c } h1
            exact ⟨.slideChanged c :: pre, by simp [hpre]⟩

/-- Claim C5: a cancellation wake stops the stream with no event; on any
other wake the generation check runs first, a newer generation emits the
reload directive and ends the stream, an unchanged generation with a
changed index updates the watcher and emits the new index, and otherwise
nothing is emitted; consequently a stream trace emits the reload directive
at most once and only as its final event. -/
theorem websent_c5_stream_protocol (v : Viewer) (g c : Int) (ws : List Wake) :
    (streamStep v .cancelled = (none, [])) ∧
    (g > v.generation →
      streamStep v (.signal g c) = (none, [.contentReloaded])) ∧
    (¬ g > v.generation → c ≠ v.current →
      streamStep v (.signal g c) =
        (some { v with current := c }, [.slideChanged c])) ∧
    (¬ g > v.generation → c = v.current →
      streamStep v (.signal g c) = (some v, [])) ∧
    ((runStream v ws).count StreamEvent.contentReloaded ≤ 1) ∧
    (StreamEvent.contentReloaded ∈ runStream v ws →
      ∃ pre, runStream v ws = pre ++ [StreamEvent.contentReloaded]) := by
  refine ⟨rfl, ?_, ?_, ?_, runStream_count_le v ws, runStream_reload_final v ws⟩
  · intro hg
    simp [streamStep, hg]
  · intro hg hc
    simp [streamStep, hg, hc]
  · intro hg hc
    simp [streamStep, hg, hc]

/-- Witness for C5: a wake that sees a newer generation emits the reload
directive and ends the stream; a concrete two-wake trace ends at the
directive. -/
theorem websent_c5_stream_protocol_witness :
    streamStep ⟨0, 1⟩ (Wake.signal 1 1) = (none, [StreamEvent.contentReloaded]) :=
  (websent_c5_stream_protocol ⟨0, 1⟩ 1 1 []).2.1 (by decide)

/-- The scenario invariant holds at the start of a fresh connection. -/
theorem scenInv_init (s : State) (h1 : s.Current = 1) (hT : 3 ≤ s.Total) :
    ScenInv s.Generation s.Total [2, 3] (initExec s) := by
  refine ⟨rfl, rfl, rfl, rfl, hT, Or.inl rfl, ?_, le_refl _, ?_, ?_, ?_, ?_⟩
  · simp [initExec, h1]
  · simp [initExec, h1]
  · simp [sentList, initExec]
  · simp [sentList, initExec]
  · simp [sentList, initExec]

/-- A pending controller navigation preserves the scenario invariant. -/
theorem scenInv_goto (g0 T t : Int) (rem2 : List Int) (e : Exec)
    (hInv : ScenInv g0 T (t :: rem2) e) :
    ScenInv g0 T rem2 { e with st := GotoSlide e.st t } := by
  have hsent : sentList { e with st := GotoSlide e.st t } = sentList e := rfl
  rcases hInv.hrem with h | h | h
  · simp only [List.cons.injEq] at h
    obtain ⟨ht, hr⟩ := h
    subst ht
    subst hr
    have hst : GotoSlide e.st 2 = { e.st with Current := 2 } := by
      unfold GotoSlide
      rw [if_neg (by omega), if_neg (by rw [hInv.total]; have := hInv.hT; omega)]
    rw [hst]
    refine ⟨hInv.gen_st, hInv.gen_v, hInv.not_done, hInv.total, hInv.hT,
      Or.inr (Or.inl rfl), by simp, ?_, hInv.v_ge, ?_, ?_, ?_⟩
    · have hv := hInv.v_le
      have hc := hInv.cur
      simp only [List.length_cons] at hc
      simp only
      omega
    · exact hsent ▸ hInv.no_rel
    · exact hsent ▸ hInv.sorted
    · exact hsent ▸ hInv.bound
  · simp only [List.cons.injEq] at h
    obtain ⟨ht, hr⟩ := h
    subst ht
    subst hr
    have hst : GotoSlide e.st 3 = { e.st with Current := 3 } := by
      unfold GotoSlide
      rw [if_neg (by omega), if_neg (by rw [hInv.total]; have := hInv.hT; omega)]
    rw [hst]
    refine ⟨hInv.gen_st, hInv.gen_v, hInv.not_done, hInv.total, hInv.hT,
      Or.inr (Or.inr rfl), by simp, ?_, hInv.v_ge, ?_, ?_, ?_⟩
    · have hv := hInv.v_le
      have hc := hInv.cur
      simp only [List.length_cons] at hc
      simp only
      omega
    · exact hsent ▸ hInv.no_rel
    · exact hsent ▸ hInv.sorted
    · exact hsent ▸ hInv.bound
  · cases h

/-- A pass of the watcher loop preserves the scenario invariant. -/
theorem scenInv_wake (g0 T : Int) (rem : List Int) (e e2 : Exec)
    (hInv : ScenInv g0 T rem e) (h : wakeExec e = some e2) :
    ScenInv g0 T rem e2 := by
  unfold wakeExec at h
  rw [if_neg (show ¬ (e.done = true) by rw [hInv.not_done]; simp),
    if_neg (show ¬ (e.st.Generation > e.viewer.generation) by
      rw [hInv.gen_st, hInv.gen_v]; exact lt_irrefl g0)] at h
  by_cases hc : e.st.Current ≠ e.viewer.current
  · rw [if_pos hc] at h
    cases hb : e.buffer with
    | some ev =>
      rw [hb] at h
      cases h
    | none =>
      rw [hb] at h
      injection h with h
      subst h
      have hsent : sentList { e with
          viewer := { e.viewer with current := e.st.Current }
          buffer := some (.slideChanged e.st.Current) } =
          sentList e ++ [.slideChanged e.st.Current] := by
        simp [sentList, hb]
      have hlen : rem.length ≤ 2 := by
        rcases hInv.hrem with h | h | h <;> simp [h]
      have hcur1 : 1 ≤ e.st.Current := by
        have := hInv.cur
        omega
      refine ⟨hInv.gen_st, hInv.gen_v, hInv.not_done, hInv.total, hInv.hT,
        hInv.hrem, hInv.cur, le_refl _, hcur1, ?_, ?_, ?_⟩
      · rw [hsent]
        simp only [List.mem_append, List.mem_singleton]
        rintro (hmem | hmem)
        · exact hInv.no_rel hmem
        · cases hmem
      · rw [hsent]
        rw [List.pairwise_append]
        refine ⟨hInv.sorted, List.pairwise_singleton _ _, ?_⟩
        intro a ha b hb2
        simp only [List.mem_singleton] at hb2
        subst hb2
        have h1 := hInv.bound a ha
        have h2 := hInv.v_le
        show evIdx a ≤ evIdx (StreamEvent.slideChanged e.st.Current)
        have h3 : evIdx (StreamEvent.slideChanged e.st.Current) = e.st.Current :=
          rfl
        rw [h3]
        omega
      · rw [hsent]
        simp only [List.mem_append, List.mem_singleton]
        rintro ev (hmem | hmem)
        · have h1 := hInv.bound ev hmem
          have h2 := hInv.v_le
          show evIdx ev ≤ e.st.Current
          omega
        · subst hmem
          exact le_refl e.st.Current
  · rw [if_neg hc] at h
    injection h with h
    subst h
    exact hInv

/-- A consumption of the buffered event preserves the scenario invariant. -/
theorem scenInv_consume (g0 T : Int) (rem : List Int) (e : Exec)
    (ev : StreamEvent) (hInv : ScenInv g0 T rem e) (hb : e.buffer = some ev) :
    ScenInv g0 T rem { e with
      buffer := none
      delivered := e.delivered ++ [(ev, e.st.Current)] } := by
  have hsent : sentList { e with
      buffer := none
      delivered := e.delivered ++ [(ev, e.st.Current)] } = sentList e := by
    simp [sentList, hb]
  exact ⟨hInv.gen_st, hInv.gen_v, hInv.not_done, hInv.total, hInv.hT,
    hInv.hrem, hInv.cur, hInv.v_le, hInv.v_ge, hsent ▸ hInv.no_rel,
    hsent ▸ hInv.sorted, hsent ▸ hInv.bound⟩

/-- Running any enabled action sequence whose navigation targets are an
initial segment of the scenario preserves the scenario invariant for the
remaining targets. -/
theorem scenInv_run (g0 T : Int) (acts : List Act) :
    ∀ (rem : List Int) (e e2 : Exec), ScenInv g0 T rem e →
      Leads (gotoTargets acts) rem → runExec e acts = some e2 →
      ∃ rem2, ScenInv g0 T rem2 e2 := by
  induction acts with
  | nil =>
    intro rem e e2 hInv _ hrun
    injection hrun with hrun
    subst hrun
    exact ⟨rem, hInv⟩
  | cons a as ih =>
    intro rem e e2 hInv hld hrun
    cases a with
    | goto t =>
      cases rem with
      | nil => cases hld
      | cons r rs =>
        obtain ⟨ht, hld2⟩ := hld
        subst ht
        exact ih rs _ e2 (scenInv_goto g0 T t rs e hInv) hld2 hrun
    | wake =>
      cases hw : wakeExec e with
      | none =>
        rw [show runExec e (Act.wake :: as) = (wakeExec e).bind
          (fun x => runExec x as) from rfl, hw] at hrun
        cases hrun
      | some e1 =>
        rw [show runExec e (Act.wake :: as) = (wakeExec e).bind
          (fun x => runExec x as) from rfl, hw] at hrun
        exact ih rem e1 e2 (scenInv_wake g0 T rem e e1 hInv hw) hld hrun
    | consume =>
      cases hb : e.buffer with
      | none =>
        rw [show runExec e (Act.consume :: as) = (match e.buffer with
          | some ev => some { e with
              buffer := none
              delivered := e.delivered ++ [(ev, e.st.Current)] }
          | none => none).bind (fun x => runExec x as) from rfl, hb] at hrun
        cases hrun
      | some ev =>
        rw [show runExec e (Act.consume :: as) = (match e.buffer with
          | some ev => some { e with
              buffer := none
              delivered := e.delivered ++ [(ev, e.st.Current)] }
          | none => none).bind (fun x => runExec x as) from rfl, hb] at hrun
        exact ih _ _ e2 (scenInv_consume g0 T rem e ev hInv hb) hld hrun

/-- GotoSlide with an in-range target writes exactly that target. -/
theorem GotoSlide_in_range (s : State) (t : Int) (h1 : 1 ≤ t)
    (h2 : t ≤ s.Total) : GotoSlide s t = { s with Current := t } := by
  unfold GotoSlide
  rw [if_neg (by omega), if_neg (by omega)]

/-- The exact run of the C6 scenario: both navigations commit, then the
watcher wakes once and sends exactly one event, the final index. -/
theorem scenario_run_eq (s : State) (h1 : s.Current = 1) (hT : 3 ≤ s.Total) :
    runExec (initExec s) [Act.goto 2, Act.goto 3, Act.wake] =
      some { st := { s with Current := 3 },
             viewer := { generation := s.Generation, current := 3 },
             done := false,
             buffer := some (.slideChanged 3),
             delivered := [] } := by
  have hG2 : GotoSlide s 2 = { s with Current := 2 } :=
    GotoSlide_in_range s 2 (by omega) (by omega)
  have hG3 : GotoSlide { s with Current := 2 } 3 = { s with Current := 3 } :=
    GotoSlide_in_range { s with Current := 2 } 3 (by omega)
      (show (3 : Int) ≤ s.Total from hT)
  have hW : wakeExec
      { st := { s with Current := 3 },
        viewer := { generation := s.Generation, current := s.Current },
        done := false, buffer := none, delivered := [] } =
      some { st := { s with Current := 3 },
             viewer := { generation := s.Generation, current := 3 },
             done := false,
             buffer := some (.slideChanged 3),
             delivered := [] } := by
    unfold wakeExec
    rw [if_neg (show ¬ (false = true) by simp),
      if_neg (show ¬ (s.Generation > s.Generation) from lt_irrefl _),
      if_pos (show (3 : Int) ≠ s.Current by omega)]
  show (wakeExec
      { st := GotoSlide (GotoSlide s 2) 3,
        viewer := { generation := s.Generation, current := s.Current },
        done := false, buffer := none, delivered := [] }).bind
      (fun e2 => runExec e2 []) = _
  rw [hG2, hG3, hW]
  rfl

/-- Claim C6, amended: in the scenario where GotoSlide 2 and then
GotoSlide 3 both commit before the viewer wakes, the single wake sends
exactly one event, the final index 3; and in every execution interleaving
those two navigations with watcher passes and consumptions, the index 2 is
never delivered after the index 3.  (The buffer is a capacity-one FIFO, not
an overwrite buffer: one already-buffered stale index can still be
delivered, which is why the stronger statement of the original claim
fails.) -/
theorem websent_c6_amended (s : State) (h1 : s.Current = 1)
    (hT : 3 ≤ s.Total) :
    (∀ e2, runExec (initExec s) [Act.goto 2, Act.goto 3, Act.wake] = some e2 →
      sentList e2 = [.slideChanged 3]) ∧
    (∀ (acts : List Act) (e2 : Exec), Leads (gotoTargets acts) [2, 3] →
      runExec (initExec s) acts = some e2 →
      ¬ List.Sublist [StreamEvent.slideChanged 3, StreamEvent.slideChanged 2]
          (deliveredEvents e2)) := by
  constructor
  · intro e2 he2
    rw [scenario_run_eq s h1 hT] at he2
    injection he2 with he2
    subst he2
    rfl
  · intro acts e2 hld hrun hsub
    obtain ⟨rem2, hInv⟩ := scenInv_run s.Generation s.Total acts [2, 3]
      (initExec s) e2 (scenInv_init s h1 hT) hld hrun
    have hdsub : List.Sublist (deliveredEvents e2) (sentList e2) :=
      List.sublist_append_left _ _
    have h2 : List.Sublist
        [StreamEvent.slideChanged 3, StreamEvent.slideChanged 2]
        (sentList e2) := hsub.trans hdsub
    have h3 := List.Pairwise.sublist h2 hInv.sorted
    have h4 := (List.pairwise_cons.mp h3).1 (.slideChanged 2)
      (List.mem_singleton.mpr rfl)
    simp only [evIdx] at h4
    omega

/-- Witness for the amended C6 at the sample state: the scenario run is
enabled and sends exactly the one event carrying index 3. -/
theorem websent_c6_amended_witness :
    runExec (initExec state0) [Act.goto 2, Act.goto 3, Act.wake] =
      some { st := { state0 with Current := 3 },
             viewer := { generation := state0.Generation, current := 3 },
             done := false,
             buffer := some (.slideChanged 3),
             delivered := [] } ∧
    sentList { st := { state0 with Current := 3 },
               viewer := { generation := state0.Generation, current := 3 },
               done := false,
               buffer := some (.slideChanged 3),
               delivered := [] } = [.slideChanged 3] := by
  refine ⟨by decide, ?_⟩
  exact (websent_c6_amended state0 (by decide) (by decide)).1 _ (by decide)

/-- Counterexample to claim C6 as stated: the delivery buffer is a blocking
FIFO, not an overwrite buffer, so a slow consumer can receive a stale
intermediate index.  Concretely, after GotoSlide 2 the watcher buffers
index 2; GotoSlide 3 then commits; the slow consumer now reads index 2 from
the buffer at a moment when the current index is already 3, and only
afterwards receives index 3 — so it does not only ever receive the most
recent index. -/
theorem websent_c6_counterexample :
    (runExec (initExec state0)
        [Act.goto 2, Act.wake, Act.goto 3, Act.consume, Act.wake,
          Act.consume]).map Exec.delivered =
      some [(StreamEvent.slideChanged 2, 3), (StreamEvent.slideChanged 3, 3)] := by
  decide

/-- Unfolding of loadUserStyle on a builtin reference. -/
theorem loadUserStyle_builtin_eq (embedded fs : FS) (st : Str)
    (hpre : List.isPrefixOf "builtin:".data st = true) :
    loadUserStyle embedded fs st =
      (match embedded ("styles/".data ++ st.drop 8 ++ ".css".data) with
       | none => Except.error (LoadError.missingBuiltin (st.drop 8))
       | some style => Except.ok style) := by
  unfold loadUserStyle
  rw [if_pos hpre]

/-- Unfolding of loadUserStyle on a plain file reference. -/
theorem loadUserStyle_plain_eq (embedded fs : FS) (st : Str)
    (hpre : ¬ List.isPrefixOf "builtin:".data st = true) :
    loadUserStyle embedded fs st =
      (match fs st with
       | none => Except.error (LoadError.unreadableStyle st)
       | some style => Except.ok style) := by
  unfold loadUserStyle
  rw [if_neg hpre]

/-- loadUserStyle errors exactly when styleLoadFails holds. -/
theorem loadUserStyle_error_iff (embedded fs : FS) (st : Str) :
    (∃ e, loadUserStyle embedded fs st = .error e) ↔
      styleLoadFails embedded fs st := by
  by_cases hpre : List.isPrefixOf "builtin:".data st = true
  · rw [loadUserStyle_builtin_eq embedded fs st hpre]
    unfold styleLoadFails
    rw [if_pos hpre]
    cases hb : embedded ("styles/".data ++ st.drop 8 ++ ".css".data) with
    | none => simp
    | some style => simp
  · rw [loadUserStyle_plain_eq embedded fs st hpre]
    unfold styleLoadFails
    rw [if_neg hpre]
    cases hb : fs st with
    | none => simp
    | some style => simp

/-- loadSlides errors exactly when the filename does not end in .md, or the
file is unreadable, or the trimmed content splits into no slides. -/
theorem loadSlides_error_iff (fs : FS) (render : Str → Str) (file : Str) :
    (∃ e, loadSlides fs render file = .error e) ↔
      (List.isSuffixOf ".md".data file = false ∨ fs file = none ∨
       (∃ raw, fs file = some raw ∧ splitSlides (trimSpace raw) = [])) := by
  unfold loadSlides
  split
  · rename_i hmd
    simp only [Bool.not_eq_true] at hmd
    simp [hmd]
  · rename_i hmd
    simp only [Bool.not_eq_true] at hmd
    cases hf : fs file with
    | none => simp [hf]
    | some raw =>
      dsimp only
      split
      · rename_i hlen
        simp only [List.length_map, List.enum_length] at hlen
        constructor
        · intro _
          refine Or.inr (Or.inr ⟨raw, rfl, ?_⟩)
          exact List.length_eq_zero.mp (by omega)
        · intro _
          exact ⟨.noSlides, rfl⟩
      · rename_i hlen
        simp only [List.length_map, List.enum_length] at hlen
        constructor
        · rintro ⟨e, he⟩
          cases he
        · rintro (h | h | ⟨raw2, hr2, hsplit⟩)
          · exact absurd h hmd
          · cases h
          · injection hr2 with hr2
            subst hr2
            rw [hsplit] at hlen
            simp at hlen

/-- Claim C7, amended: Reload fails exactly when the source filename does
not end in .md, or the source cannot be read, or the loaded content
contains zero slides, or the stylesheet cannot be loaded (a builtin name
that does not exist, or an unreadable stylesheet file); every other input
succeeds. -/
theorem websent_c7_amended (fs emb : FS) (render : Str → Str) (s : State)
    (p st : Str) :
    (Reload fs emb render s p st).1 ≠ none ↔
      (List.isSuffixOf ".md".data p = false ∨ fs p = none ∨
       (∃ raw, fs p = some raw ∧ splitSlides (trimSpace raw) = []) ∨
       styleLoadFails emb fs st) := by
  constructor
  · intro h
    unfold Reload at h
    cases hls : loadSlides fs render p with
    | error e =>
      rcases (loadSlides_error_iff fs render p).mp ⟨e, hls⟩ with h1 | h1 | h1
      · exact Or.inl h1
      · exact Or.inr (Or.inl h1)
      · exact Or.inr (Or.inr (Or.inl h1))
    | ok v =>
      obtain ⟨title, slides, raw⟩ := v
      rw [hls] at h
      cases hst : loadUserStyle emb fs st with
      | error e =>
        exact Or.inr (Or.inr (Or.inr
          ((loadUserStyle_error_iff emb fs st).mp ⟨e, hst⟩)))
      | ok style =>
        rw [hst] at h
        simp at h
  · intro h
    unfold Reload
    cases hls : loadSlides fs render p with
    | error e => simp
    | ok v =>
      obtain ⟨title, slides, raw⟩ := v
      cases hst : loadUserStyle emb fs st with
      | error e => simp
      | ok style =>
        exfalso
        have hnoLS : ¬ ∃ e, loadSlides fs render p = .error e := by
          rintro ⟨e, he⟩
          rw [hls] at he
          cases he
        have hnoST : ¬ ∃ e, loadUserStyle emb fs st = .error e := by
          rintro ⟨e, he⟩
          rw [hst] at he
          cases he
        rcases h with h1 | h1 | h1 | h1
        · exact hnoLS ((loadSlides_error_iff fs render p).mpr (Or.inl h1))
        · exact hnoLS
            ((loadSlides_error_iff fs render p).mpr (Or.inr (Or.inl h1)))
        · exact hnoLS
            ((loadSlides_error_iff fs render p).mpr (Or.inr (Or.inr h1)))
        · exact hnoST ((loadUserStyle_error_iff emb fs st).mpr h1)

/-- Witness for the amended C7: an unreadable source makes a concrete
Reload fail. -/
theorem websent_c7_amended_witness :
    (Reload fsNone fsNone render1 state0 "a.md".data "b.css".data).1 ≠ none :=
  (websent_c7_amended fsNone fsNone render1 state0
    "a.md".data "b.css".data).mpr (Or.inr (Or.inl rfl))

/-- Counterexample to claim C7 as stated: a readable source with one slide
and a readable stylesheet, whose filename merely does not end in .md, is
rejected by Reload — although the source can be read, the presentation is
not empty, and the stylesheet loads, where the claim promises success. -/
theorem websent_c7_counterexample :
    (Reload fsTxt fsNone render1 state0
        "slides.txt".data "style.css".data).1 =
      some (.notMarkdown "slides.txt".data) ∧
    fsTxt "slides.txt".data = some "hello".data ∧
    splitSlides (trimSpace "hello".data) = ["hello".data] ∧
    fsTxt "style.css".data = some "b".data ∧
    ¬ styleLoadFails fsNone fsTxt "style.css".data := by
  refine ⟨by decide, by decide, by decide, by decide, ?_⟩
  unfold styleLoadFails
  rw [if_neg (by decide)]
  decide

end Websent
